import Mathlib

/-!
Shallow embedding of the mission-coordination core of
`src/scripts/server_ai_model.py` (Besher019/WALSAIP-Strawberry-Bot).

The Python module keeps six module-level variables (lines 36-41):
`MISSION_STATE`, `LAST_STATUS`, `CURRENT_MISSION_ID`, `MISSIONS`,
`CONTROL_COMMAND`, `LAST_TERMINAL_STATUS`.  We embed them as the fields of
`ServerState` and each Flask route / helper as a function from `ServerState`
to `ServerState` paired with its response (or an `Except` when the Python
code can raise an exception that propagates out of the handler).

Nondeterministic inputs of the source (`datetime.now()`, `uuid.uuid4()` in
`_new_mission_id`) are passed in as explicit `String` arguments (`now`,
`newId`); everything else is translated statement by statement.

Python dicts used as records (telemetry payloads) are embedded as the
`Payload` structure whose fields are the keys the core reads or writes
(`status`, `index`, `mission_state`, `mission_id`, `terminal_status`);
a missing key is `none`.  The `MISSIONS` dict is an insertion-ordered
association list (`dictSet` replaces in place or appends, exactly the
CPython dict behaviour the listing order of `/missions` depends on).
-/

/-- A JSON scalar that can sit in the `index` field of a telemetry payload:
the source calls `int(idx)` on it, which succeeds on ints and on strings
that parse as integers and raises `ValueError` otherwise. -/
inductive PyVal where
  | int (n : Int)
  | str (s : String)
deriving DecidableEq, Repr

/-- Exceptions the embedded code can raise: `ValueError` from `int(...)`
(line 102 / 106) and `NameError` from the undefined name `jupytext`
(line 496). -/
inductive PyErr where
  | valueError (s : String)
  | nameError (s : String)
deriving DecidableEq, Repr

/-- Python `str.startswith(pre)`: `pre`'s characters are a prefix of the
string's characters (structural, mirroring the code-point comparison Python
performs). -/
def strStartsWith (s pre : String) : Bool :=
  pre.data.isPrefixOf s.data

/-- Accumulator loop of the decimal parser below. -/
def digitsValAux : List Char → Nat → Option Nat
  | [], acc => some acc
  | c :: cs, acc =>
    if c.isDigit then digitsValAux cs (acc * 10 + (c.toNat - 48)) else none

/-- Value of a nonempty all-digit character list. -/
def digitsVal : List Char → Option Nat
  | [] => none
  | l => digitsValAux l 0

/-- Python `int(str)` on the payload strings the core can receive: an
optional leading minus followed by decimal digits; anything else raises
`ValueError`. -/
def pyStrToInt (s : String) : Option Int :=
  match s.data with
  | '-' :: rest => (digitsVal rest).map (fun n => -(n : Int))
  | l => (digitsVal l).map (fun n => (n : Int))

/-- Python `int(v)` on a payload value. -/
def pyIntOf : PyVal → Except PyErr Int
  | .int n => .ok n
  | .str s =>
    match pyStrToInt s with
    | some n => .ok n
    | none => .error (.valueError s)

/-- A telemetry payload dict restricted to the keys the core touches.
`none` means the key is absent. -/
structure Payload where
  status : Option String := none
  index : Option PyVal := none
  missionState : Option String := none
  missionId : Option String := none
  terminalStatus : Option (Option String) := none
deriving DecidableEq, Repr

/-- The mission dict created in `_start_new_mission` (lines 61-70). -/
structure Mission where
  id : String
  started_at : String
  ended_at : Option String
  status : String
  waypoints_reached : List Int
  waypoints_unreachable : List Int
  images_count : Nat
  last_status : Option Payload
deriving DecidableEq, Repr

/-- The dict produced by `_mission_summary` (lines 137-146). -/
structure MissionSummary where
  id : String
  started_at : String
  ended_at : Option String
  status : String
  waypoints_reached : List Int
  waypoints_unreachable : List Int
  images_count : Nat
deriving DecidableEq, Repr

/-- The module-level state (lines 36-41), plus one piece of object-identity
bookkeeping that a value-level embedding needs: `LAST_STATUS_MISSION` is the
id of the mission whose `last_status` entry is the very same dict object as
the one bound to `LAST_STATUS`, or `none` when no mission holds it.  In the
source this sharing arises because line 523 binds `LAST_STATUS = payload`
and line 92 then stores that same `payload` object into the current
mission, so the in-place writes to `LAST_STATUS` performed by
`/start_mission` (lines 467-468) and `/last_status` (lines 540-544) are
also visible through `MISSIONS[that mission]["last_status"]`.  A payload
dict is stored into at most one mission (each `/status_update` call
creates a fresh dict, rebinding `LAST_STATUS` before the single store of
line 92), so one optional mission id captures the full aliasing. -/
structure ServerState where
  MISSION_STATE : String
  LAST_STATUS : Option Payload
  CURRENT_MISSION_ID : Option String
  MISSIONS : List (String × Mission)
  CONTROL_COMMAND : String
  LAST_TERMINAL_STATUS : Option String
  LAST_STATUS_MISSION : Option String
deriving DecidableEq, Repr

/-- The state at module load (lines 36-41): the initial empty snapshot dict
is not stored in any mission. -/
def initState : ServerState :=
  { MISSION_STATE := "idle"
    LAST_STATUS := none
    CURRENT_MISSION_ID := none
    MISSIONS := []
    CONTROL_COMMAND := "none"
    LAST_TERMINAL_STATUS := none
    LAST_STATUS_MISSION := none }

/-- Python `MISSIONS.get(k)`: first (unique) binding of the key. -/
def dictGet (l : List (String × Mission)) (k : String) : Option Mission :=
  match l with
  | [] => none
  | (k', v) :: rest => if k' = k then some v else dictGet rest k

/-- Python `MISSIONS[k] = v`: replace in place if the key exists, else
append (CPython dicts preserve insertion order). -/
def dictSet (l : List (String × Mission)) (k : String) (v : Mission) :
    List (String × Mission) :=
  match l with
  | [] => [(k, v)]
  | (k', v') :: rest =>
    if k' = k then (k, v) :: rest else (k', v') :: dictSet rest k v

/-- Propagate an in-place mutation of the dict bound to `LAST_STATUS` to
the mission that holds the same dict object as its `last_status` (see
`ServerState.LAST_STATUS_MISSION`): when some mission aliases the snapshot,
its `last_status` entry becomes the mutated payload too. -/
def writeThrough (missions : List (String × Mission)) (alias? : Option String)
    (ls : Payload) : List (String × Mission) :=
  match alias? with
  | none => missions
  | some mid =>
    match dictGet missions mid with
    | none => missions
    | some m => dictSet missions mid { m with last_status := some ls }

/-- Python `set.add` on a set embedded as a duplicate-free list. -/
def setAdd (l : List Int) (n : Int) : List Int :=
  if n ∈ l then l else l ++ [n]

/-- Insert into an ascending list, used to embed Python `sorted(...)` on
waypoint-index sets (line 143-144). -/
def insertAsc (n : Int) : List Int → List Int
  | [] => [n]
  | m :: ms => if n ≤ m then n :: m :: ms else m :: insertAsc n ms

/-- Python `sorted(list(s))` for an integer set. -/
def sortAsc (l : List Int) : List Int :=
  l.foldr insertAsc []

/-- `_start_new_mission` (lines 54-75): register a fresh pending mission,
make it current, clear the terminal status.  `newId` stands for the
`_new_mission_id()` result and `now` for the creation timestamp. -/
def _start_new_mission (newId now : String) (s : ServerState) :
    String × ServerState :=
  let mission : Mission :=
    { id := newId
      started_at := now
      ended_at := none
      status := "pending"
      waypoints_reached := []
      waypoints_unreachable := []
      images_count := 0
      last_status := none }
  (newId,
    { s with
      MISSIONS := dictSet s.MISSIONS newId mission
      CURRENT_MISSION_ID := some newId
      LAST_TERMINAL_STATUS := none })

/-- The waypoint block of `_update_mission_on_status` (lines 99-106):
`int(idx)` can raise, in which case the mission keeps the fields mutated so
far and the exception propagates. -/
def applyWp (m : Mission) (status : String) (p : Payload) :
    Mission × Option PyErr :=
  if status = "waypoint_reached" then
    match p.index with
    | none => (m, none)
    | some v =>
      match pyIntOf v with
      | .ok n => ({ m with waypoints_reached := setAdd m.waypoints_reached n }, none)
      | .error e => (m, some e)
  else if status = "waypoint_unreachable" then
    match p.index with
    | none => (m, none)
    | some v =>
      match pyIntOf v with
      | .ok n => ({ m with waypoints_unreachable := setAdd m.waypoints_unreachable n }, none)
      | .error e => (m, some e)
  else (m, none)

/-- The terminal block of `_update_mission_on_status` (lines 108-121):
returns the updated mission and the new `LAST_TERMINAL_STATUS` when one of
the terminal branches fires. -/
def applyTerminal (m : Mission) (status now : String) :
    Mission × Option String :=
  if status = "mission_complete" ∨ status = "mission_complete_after_abort" then
    ({ m with status := "complete", ended_at := some now }, some "mission_complete")
  else if strStartsWith status "home_unreachable" then
    ({ m with status := "home_unreachable", ended_at := some now }, some "home_unreachable")
  else if status = "mission_aborted_by_operator" then
    ({ m with status := "aborted", ended_at := some now }, some "mission_aborted_by_operator")
  else (m, none)

/-- Lines 88-121 of `_update_mission_on_status`: the part after the
no-current-mission guard.  Line 92 stores the very dict bound to
`LAST_STATUS` into the mission, so every commit also records that the
mission now aliases the snapshot (`LAST_STATUS_MISSION`). -/
def updateBody (now : String) (p : Payload) (s : ServerState) :
    ServerState × Option PyErr :=
  match s.CURRENT_MISSION_ID with
  | none => (s, none)
  | some cid =>
    match dictGet s.MISSIONS cid with
    | none => (s, none)
    | some mission =>
      let status := p.status.getD ""
      let m1 := { mission with last_status := some p }
      let m2 := if status = "mission_started" then { m1 with status := "running" } else m1
      match applyWp m2 status p with
      | (m3, some e) =>
        ({ s with
            MISSIONS := dictSet s.MISSIONS cid m3
            LAST_STATUS_MISSION := some cid }, some e)
      | (m3, none) =>
        let tm := applyTerminal m3 status now
        let s' := { s with
          MISSIONS := dictSet s.MISSIONS cid tm.1
          LAST_STATUS_MISSION := some cid }
        match tm.2 with
        | some t => ({ s' with LAST_TERMINAL_STATUS := some t }, none)
        | none => (s', none)

/-- `_update_mission_on_status` (lines 78-121).  `newId`/`now` feed the
implicit `_start_new_mission()` call on line 84.  The returned state is the
state at exit even when an exception propagates (Python keeps the
mutations made before the raise). -/
def _update_mission_on_status (now newId : String) (p : Payload)
    (s : ServerState) : ServerState × Option PyErr :=
  match s.CURRENT_MISSION_ID with
  | none =>
    if p.status = some "mission_started" then
      updateBody now p (_start_new_mission newId now s).2
    else (s, none)
  | some _ => updateBody now p s

/-- `_register_image_for_current_mission` (lines 124-134). -/
def _register_image_for_current_mission (newId now : String)
    (s : ServerState) : ServerState :=
  let s1 :=
    match s.CURRENT_MISSION_ID with
    | none => (_start_new_mission newId now s).2
    | some _ => s
  match s1.CURRENT_MISSION_ID with
  | none => s1
  | some cid =>
    match dictGet s1.MISSIONS cid with
    | none => s1
    | some m =>
      let m1 := { m with images_count := m.images_count + 1 }
      let m2 := if m1.status = "pending" then { m1 with status := "running" } else m1
      { s1 with MISSIONS := dictSet s1.MISSIONS cid m2 }

/-- `_mission_summary` (lines 137-146). -/
def _mission_summary (m : Mission) : MissionSummary :=
  { id := m.id
    started_at := m.started_at
    ended_at := m.ended_at
    status := m.status
    waypoints_reached := sortAsc m.waypoints_reached
    waypoints_unreachable := sortAsc m.waypoints_unreachable
    images_count := m.images_count }

/-- Response of `/start_mission`. -/
structure StartResp where
  ok : Bool
  mission_id : String
deriving DecidableEq, Repr

/-- Response of `/abort_mission` and (intended) `/return_home`. -/
structure CmdResp where
  ok : Bool
  command : String
deriving DecidableEq, Repr

/-- Route `/start_mission` (lines 462-471).  Lines 467-468 mutate the dict
bound to `LAST_STATUS` in place (setdefault of `status`, assignment of
`mission_id`), so the mission aliasing that dict sees the same update
(`writeThrough`); the binding itself, and hence the alias, is unchanged. -/
def start_mission (newId now : String) (s : ServerState) :
    ServerState × StartResp :=
  let s1 := { s with MISSION_STATE := "start" }
  let r := _start_new_mission newId now s1
  let mid := r.1
  let s2 := r.2
  let ls : Payload :=
    match s2.LAST_STATUS with
    | none => { status := some "mission_idle", missionId := some mid }
    | some p =>
      { p with
        status := some (p.status.getD "mission_idle")
        missionId := some mid }
  ({ s2 with
      LAST_STATUS := some ls
      LAST_TERMINAL_STATUS := none
      MISSIONS := writeThrough s2.MISSIONS s2.LAST_STATUS_MISSION ls },
    { ok := true, mission_id := mid })

/-- Route `/mission_state` (lines 474-480): return the flag, resetting it
to idle when it was start (one-shot). -/
def mission_state (s : ServerState) : ServerState × String :=
  (if s.MISSION_STATE = "start" then { s with MISSION_STATE := "idle" } else s,
    s.MISSION_STATE)

/-- Route `/abort_mission` (lines 483-488). -/
def abort_mission (s : ServerState) : ServerState × CmdResp :=
  ({ s with CONTROL_COMMAND := "abort" }, { ok := true, command := "abort" })

/-- Route `/return_home` (lines 491-496): the handler assigns
`CONTROL_COMMAND = "go_home"` and then evaluates `jupytext({...})`, a name
defined nowhere in the module, so it raises `NameError` after the state
mutation has taken effect. -/
def return_home (s : ServerState) : ServerState × Except PyErr CmdResp :=
  ({ s with CONTROL_COMMAND := "go_home" },
    .error (.nameError "jupytext"))

/-- Route `/control_state` (lines 499-504): return the slot, always
resetting it to none (one-shot). -/
def control_state (s : ServerState) : ServerState × String :=
  ({ s with CONTROL_COMMAND := "none" }, s.CONTROL_COMMAND)

/-- Response of `/status_update` on success. -/
structure OkResp where
  ok : Bool
deriving DecidableEq, Repr

/-- Route `/status_update` (lines 507-527).  `raw = none` is the
unparseable-JSON case normalized to `{status: bad_status_payload}`;
`raw = some p` is a parsed payload (an empty dict is `some {}`).  Line 523
rebinds `LAST_STATUS` to the freshly parsed dict, which no mission holds
yet, so the alias is cleared here and re-established by line 92 inside
`_update_mission_on_status` when the report reaches a mission. -/
def status_update (now newId : String) (raw : Option Payload)
    (s : ServerState) : ServerState × Except PyErr OkResp :=
  let payload0 := raw.getD { status := some "bad_status_payload" }
  let status := payload0.status.getD ""
  let s1 := if status = "mission_idle" then { s with MISSION_STATE := "idle" } else s
  let payload1 :=
    { payload0 with
      missionState := some (payload0.missionState.getD s1.MISSION_STATE)
      missionId := some (payload0.missionId.getD (s1.CURRENT_MISSION_ID.getD "—")) }
  let s2 := { s1 with LAST_STATUS := some payload1, LAST_STATUS_MISSION := none }
  match _update_mission_on_status now newId payload1 s2 with
  | (s3, some e) => (s3, .error e)
  | (s3, none) => (s3, .ok { ok := true })

/-- Route `/last_status` (lines 530-545).  When a last status exists the
handler mutates the stored dict in place: it inserts the missing
`mission_state` / `mission_id` defaults and always writes
`terminal_status` (line 544).  Because the registry's aliasing mission
holds that same dict as its `last_status`, the mutation is visible in
`MISSIONS` too (`writeThrough`). -/
def last_status (s : ServerState) : ServerState × Payload :=
  match s.LAST_STATUS with
  | none =>
    (s,
      { status := some "no_status_yet"
        missionState := some s.MISSION_STATE
        missionId := some (s.CURRENT_MISSION_ID.getD "—")
        terminalStatus := some s.LAST_TERMINAL_STATUS })
  | some p =>
    let p1 :=
      { p with
        missionState := some (p.missionState.getD s.MISSION_STATE)
        missionId := some (p.missionId.getD (s.CURRENT_MISSION_ID.getD "—"))
        terminalStatus := some s.LAST_TERMINAL_STATUS }
    ({ s with
        LAST_STATUS := some p1
        MISSIONS := writeThrough s.MISSIONS s.LAST_STATUS_MISSION p1 }, p1)

/-- Stable insertion into a descending-by-`started_at` list: an element is
placed before every element whose key is ≤ its own, which is exactly where
a stable descending sort (Python `sorted(..., reverse=True)`, line 551)
puts an element coming earlier in the input. -/
def insertByStartedAt (x : MissionSummary) :
    List MissionSummary → List MissionSummary
  | [] => [x]
  | y :: ys =>
    if y.started_at ≤ x.started_at then x :: y :: ys
    else y :: insertByStartedAt x ys

/-- Stable sort, descending by `started_at`: the unique stable result,
hence equal to Python `sorted(items, key=..., reverse=True)`. -/
def sortByStartedAtDesc (l : List MissionSummary) : List MissionSummary :=
  l.foldr insertByStartedAt []

/-- Route `/missions` (lines 548-552). -/
def missions (s : ServerState) : ServerState × List MissionSummary :=
  (s, sortByStartedAtDesc (s.MISSIONS.map (fun kv => _mission_summary kv.2)))

/-- The operations of the core, for whole-system invariants.  The id/time
arguments stand for the fresh `_new_mission_id()` / `datetime.now()`
values an execution of the operation would draw. -/
inductive Op where
  | startMission (newId now : String)
  | missionState
  | abortMission
  | returnHome
  | controlState
  | statusUpdate (now newId : String) (raw : Option Payload)
  | lastStatus
  | missionsQ
  | registerImage (newId now : String)
deriving DecidableEq, Repr

/-- State transition of one operation (the state at handler exit, also
when an exception propagates out of the handler). -/
def step (op : Op) (s : ServerState) : ServerState :=
  match op with
  | .startMission newId now => (start_mission newId now s).1
  | .missionState => (mission_state s).1
  | .abortMission => (abort_mission s).1
  | .returnHome => (return_home s).1
  | .controlState => (control_state s).1
  | .statusUpdate now newId raw => (status_update now newId raw s).1
  | .lastStatus => (last_status s).1
  | .missionsQ => (missions s).1
  | .registerImage newId now => _register_image_for_current_mission newId now s

/-- The fresh mission id an operation would use, if any. -/
def opNewId : Op → Option String
  | .startMission newId _ => some newId
  | .statusUpdate _ newId _ => some newId
  | .registerImage newId _ => some newId
  | _ => none

/-- Statuses that fire a `status`-setting rule in
`_update_mission_on_status`. -/
def transitioningStatus (st : String) : Prop :=
  st = "mission_started" ∨ st = "mission_complete" ∨
    st = "mission_complete_after_abort" ∨
    strStartsWith st "home_unreachable" = true ∨
    st = "mission_aborted_by_operator"

instance (st : String) : Decidable (transitioningStatus st) := by
  unfold transitioningStatus
  infer_instance

/-- The effective status string a `/status_update` body computes from its
raw input. -/
def effStatus (raw : Option Payload) : String :=
  ((raw.getD { status := some "bad_status_payload" }).status).getD ""

/-- Terminal mission statuses. -/
def isTerminal (st : String) : Prop :=
  st = "complete" ∨ st = "home_unreachable" ∨ st = "aborted"

instance (st : String) : Decidable (isTerminal st) := by
  unfold isTerminal
  infer_instance

/-- Results of k successive `/control_state` polls. -/
def pollsC : Nat → ServerState → List String
  | 0, _ => []
  | k + 1, s => (control_state s).2 :: pollsC k (control_state s).1

/-- Results of k successive `/mission_state` polls. -/
def pollsM : Nat → ServerState → List String
  | 0, _ => []
  | k + 1, s => (mission_state s).2 :: pollsM k (mission_state s).1

/-- Program counter of one poller thread executing the `/control_state`
handler: before line 502, between lines 502 and 503 holding the value it
read, or done holding the value it returned. -/
inductive ThreadPC where
  | ready
  | gotValue (v : String)
  | finished (v : String)
deriving DecidableEq, Repr

/-- One micro step of thread i of a pool of `/control_state` pollers over
the shared `CONTROL_COMMAND` variable: `ready` executes line 502
(`cmd = CONTROL_COMMAND`), `gotValue` executes line 503
(`CONTROL_COMMAND = "none"`). -/
def microStep (c : String × List ThreadPC) (i : Nat) :
    String × List ThreadPC :=
  match c.2.get? i with
  | none => c
  | some .ready => (c.1, c.2.set i (.gotValue c.1))
  | some (.gotValue v) => ("none", c.2.set i (.finished v))
  | some (.finished _) => c

/-- Run a schedule (a list of thread indices) of poller micro steps. -/
def microRun (sched : List Nat) (c : String × List ThreadPC) :
    String × List ThreadPC :=
  sched.foldl microStep c


/-! ## Helper lemmas -/

lemma dictGet_dictSet_self (l : List (String × Mission)) (k : String)
    (v : Mission) : dictGet (dictSet l k v) k = some v := by
  induction l with
  | nil => simp [dictSet, dictGet]
  | cons hd tl ih =>
    obtain ⟨k', v'⟩ := hd
    by_cases h : k' = k <;> simp [dictSet, dictGet, h, ih]

lemma dictGet_dictSet_ne (l : List (String × Mission)) (k k' : String)
    (v : Mission) (h : k' ≠ k) :
    dictGet (dictSet l k v) k' = dictGet l k' := by
  induction l with
  | nil => simp [dictSet, dictGet, Ne.symm h]
  | cons hd tl ih =>
    obtain ⟨a, b⟩ := hd
    by_cases ha : a = k
    · subst ha
      simp [dictSet, dictGet, Ne.symm h]
    · simp [dictSet, dictGet, ha, ih]

lemma dictGet_dictSet_cases (l : List (String × Mission)) (cid mid : String)
    (v m : Mission) (h : dictGet l mid = some m) :
    (cid = mid ∧ dictGet (dictSet l cid v) mid = some v) ∨
      (cid ≠ mid ∧ dictGet (dictSet l cid v) mid = some m) := by
  by_cases hc : cid = mid
  · subst hc
    exact Or.inl ⟨rfl, dictGet_dictSet_self l cid v⟩
  · refine Or.inr ⟨hc, ?_⟩
    rw [dictGet_dictSet_ne l cid mid v (fun hh => hc hh.symm)]
    exact h

lemma dictSet_map_of_get {β : Type} (l : List (String × Mission)) (k : String)
    (m v : Mission) (f : String × Mission → β)
    (h : dictGet l k = some m) (hf : f (k, v) = f (k, m)) :
    (dictSet l k v).map f = l.map f := by
  induction l with
  | nil => simp [dictGet] at h
  | cons hd tl ih =>
    obtain ⟨k', v'⟩ := hd
    by_cases hk : k' = k
    · subst hk
      simp [dictGet] at h
      subst h
      simp [dictSet, hf]
    · simp [dictGet, hk] at h
      simp [dictSet, hk, ih h]

lemma dictGet_writeThrough (l : List (String × Mission)) (a : Option String)
    (ls : Payload) (k : String) (m : Mission) (h : dictGet l k = some m) :
    ∃ m', dictGet (writeThrough l a ls) k = some m'
      ∧ m'.images_count = m.images_count ∧ m'.status = m.status := by
  cases a with
  | none => exact ⟨m, by simpa [writeThrough] using h, rfl, rfl⟩
  | some g =>
    cases hg : dictGet l g with
    | none => exact ⟨m, by simpa [writeThrough, hg] using h, rfl, rfl⟩
    | some mg =>
      by_cases hgk : g = k
      · subst hgk
        rw [h] at hg
        injection hg with hv
        subst hv
        exact ⟨{ m with last_status := some ls },
          by simp [writeThrough, h, dictGet_dictSet_self], rfl, rfl⟩
      · refine ⟨m, ?_, rfl, rfl⟩
        simp only [writeThrough, hg]
        rw [dictGet_dictSet_ne _ _ _ _ (fun hh => hgk hh.symm)]
        exact h

lemma writeThrough_map_fst (l : List (String × Mission)) (a : Option String)
    (ls : Payload) : (writeThrough l a ls).map Prod.fst = l.map Prod.fst := by
  cases a with
  | none => rfl
  | some g =>
    cases hg : dictGet l g with
    | none => simp [writeThrough, hg]
    | some mg =>
      simp only [writeThrough, hg]
      exact dictSet_map_of_get l g mg _ Prod.fst hg rfl

lemma writeThrough_summaries (l : List (String × Mission)) (a : Option String)
    (ls : Payload) :
    (writeThrough l a ls).map (fun kv => _mission_summary kv.2)
      = l.map (fun kv => _mission_summary kv.2) := by
  cases a with
  | none => rfl
  | some g =>
    cases hg : dictGet l g with
    | none => simp [writeThrough, hg]
    | some mg =>
      simp only [writeThrough, hg]
      exact dictSet_map_of_get l g mg _ (fun kv => _mission_summary kv.2) hg rfl

lemma dictGet_writeThrough_map_status (l : List (String × Mission))
    (a : Option String) (ls : Payload) (k : String) :
    (dictGet (writeThrough l a ls) k).map Mission.status
      = (dictGet l k).map Mission.status := by
  cases a with
  | none => rfl
  | some g =>
    cases hg : dictGet l g with
    | none => simp [writeThrough, hg]
    | some mg =>
      by_cases hgk : g = k
      · subst hgk
        simp [writeThrough, hg, dictGet_dictSet_self]
      · simp only [writeThrough, hg]
        rw [dictGet_dictSet_ne _ _ _ _ (fun hh => hgk hh.symm)]

lemma applyWp_status (m : Mission) (st : String) (p : Payload) :
    ((applyWp m st p).1).status = m.status := by
  unfold applyWp
  repeat' split
  all_goals rfl

lemma applyWp_images (m : Mission) (st : String) (p : Payload) :
    ((applyWp m st p).1).images_count = m.images_count := by
  unfold applyWp
  repeat' split
  all_goals rfl

lemma applyTerminal_images (m : Mission) (st now : String) :
    ((applyTerminal m st now).1).images_count = m.images_count := by
  unfold applyTerminal
  repeat' split
  all_goals rfl

lemma applyTerminal_of_not_trans (m : Mission) (st now : String)
    (h : ¬ transitioningStatus st) : applyTerminal m st now = (m, none) := by
  unfold transitioningStatus at h
  push_neg at h
  obtain ⟨h1, h2, h3, h4, h5⟩ := h
  unfold applyTerminal
  rw [if_neg (by rintro (hc | hc) <;> [exact h2 hc; exact h3 hc]),
    if_neg h4, if_neg h5]

lemma updateBody_mission (now : String) (p : Payload) (s : ServerState)
    (mid : String) (m : Mission) (h : dictGet s.MISSIONS mid = some m) :
    ∃ m', dictGet ((updateBody now p s).1).MISSIONS mid = some m'
      ∧ m'.images_count = m.images_count
      ∧ (¬ transitioningStatus (p.status.getD "") → m'.status = m.status) := by
  cases hcur : s.CURRENT_MISSION_ID with
  | none =>
    refine ⟨m, ?_, rfl, fun _ => rfl⟩
    simp [updateBody, hcur, h]
  | some cid =>
    cases hm : dictGet s.MISSIONS cid with
    | none =>
      refine ⟨m, ?_, rfl, fun _ => rfl⟩
      simp [updateBody, hcur, hm, h]
    | some mission =>
      have hmid : cid = mid → mission = m := by
        intro hc
        rw [hc, h] at hm
        injection hm with hv
        exact hv.symm
      simp only [updateBody, hcur, hm]
      split
      · rename_i m3 e hap
        have hi := applyWp_images
          (if p.status.getD "" = "mission_started"
            then { mission with status := "running", last_status := some p }
            else { mission with last_status := some p })
          (p.status.getD "") p
        rw [hap] at hi
        have hi3 : m3.images_count = mission.images_count := by
          by_cases hms : p.status.getD "" = "mission_started"
          · rw [if_pos hms] at hi
            exact hi
          · rw [if_neg hms] at hi
            exact hi
        rcases dictGet_dictSet_cases s.MISSIONS cid mid m3 m h with ⟨hc, hg⟩ | ⟨hc, hg⟩
        · refine ⟨m3, hg, ?_, ?_⟩
          · rw [hi3, hmid hc]
          · intro htr
            have hms : p.status.getD "" ≠ "mission_started" :=
              fun hh => htr (Or.inl hh)
            have hst := applyWp_status
              (if p.status.getD "" = "mission_started"
                then { mission with status := "running", last_status := some p }
                else { mission with last_status := some p })
              (p.status.getD "") p
            rw [hap, if_neg hms] at hst
            rw [hst, hmid hc]
        · exact ⟨m, hg, rfl, fun _ => rfl⟩
      · rename_i m3 hap
        have hi := applyWp_images
          (if p.status.getD "" = "mission_started"
            then { mission with status := "running", last_status := some p }
            else { mission with last_status := some p })
          (p.status.getD "") p
        rw [hap] at hi
        have hi3 : m3.images_count = mission.images_count := by
          by_cases hms : p.status.getD "" = "mission_started"
          · rw [if_pos hms] at hi
            exact hi
          · rw [if_neg hms] at hi
            exact hi
        rcases hterm : applyTerminal m3 (p.status.getD "") now with ⟨m4, ot⟩
        have hi4 : m4.images_count = mission.images_count := by
          have hti := applyTerminal_images m3 (p.status.getD "") now
          rw [hterm] at hti
          rw [hti, hi3]
        have hstt : ¬ transitioningStatus (p.status.getD "") →
            m4.status = mission.status := by
          intro htr
          have hnt := applyTerminal_of_not_trans m3 (p.status.getD "") now htr
          rw [hterm] at hnt
          have h4 : m4 = m3 := by
            simpa using congrArg Prod.fst hnt
          have hms : p.status.getD "" ≠ "mission_started" :=
            fun hh => htr (Or.inl hh)
          have hst := applyWp_status
              (if p.status.getD "" = "mission_started"
                then { mission with status := "running", last_status := some p }
                else { mission with last_status := some p })
              (p.status.getD "") p
          rw [hap, if_neg hms] at hst
          rw [h4, hst]
        rcases dictGet_dictSet_cases s.MISSIONS cid mid m4 m h with ⟨hc, hg⟩ | ⟨hc, hg⟩
        · refine ⟨m4, ?_, by rw [hi4, hmid hc], fun htr => by rw [hstt htr, hmid hc]⟩
          cases ot <;> simpa using hg
        · refine ⟨m, ?_, rfl, fun _ => rfl⟩
          cases ot <;> simpa using hg

lemma update_mission_missions (now nid : String) (p : Payload)
    (s s3 : ServerState) (oe : Option PyErr) (mid : String) (m : Mission)
    (heq : _update_mission_on_status now nid p s = (s3, oe))
    (h : dictGet s.MISSIONS mid = some m) (hfresh : nid ≠ mid) :
    ∃ m', dictGet s3.MISSIONS mid = some m'
      ∧ m'.images_count = m.images_count
      ∧ (¬ transitioningStatus (p.status.getD "") → m'.status = m.status) := by
  have hmain : ∃ m',
      dictGet ((_update_mission_on_status now nid p s).1).MISSIONS mid = some m'
        ∧ m'.images_count = m.images_count
        ∧ (¬ transitioningStatus (p.status.getD "") → m'.status = m.status) := by
    cases hcur : s.CURRENT_MISSION_ID with
    | some cid =>
      simp only [_update_mission_on_status, hcur]
      exact updateBody_mission now p s mid m h
    | none =>
      by_cases hps : p.status = some "mission_started"
      · simp only [_update_mission_on_status, hcur]
        rw [if_pos hps]
        have h2 : dictGet ((_start_new_mission nid now s).2).MISSIONS mid = some m := by
          simp only [_start_new_mission]
          rw [dictGet_dictSet_ne _ _ _ _ (fun hh => hfresh hh.symm)]
          exact h
        exact updateBody_mission now p _ mid m h2
      · simp only [_update_mission_on_status, hcur]
        rw [if_neg hps]
        exact ⟨m, h, rfl, fun _ => rfl⟩
  rw [heq] at hmain
  simpa using hmain

lemma register_image_mission (newId now : String) (s : ServerState)
    (mid : String) (m : Mission) (h : dictGet s.MISSIONS mid = some m)
    (hfresh : newId ≠ mid) :
    ∃ m', dictGet ((_register_image_for_current_mission newId now s).MISSIONS) mid = some m'
      ∧ m.images_count ≤ m'.images_count
      ∧ (m.status ≠ "pending" → m'.status = m.status) := by
  have hne : mid ≠ newId := fun hh => hfresh hh.symm
  cases hcur : s.CURRENT_MISSION_ID with
  | none =>
    refine ⟨m, ?_, le_refl _, fun _ => rfl⟩
    simp only [_register_image_for_current_mission, hcur, _start_new_mission,
      dictGet_dictSet_self]
    rw [dictGet_dictSet_ne _ _ _ _ hne, dictGet_dictSet_ne _ _ _ _ hne]
    exact h
  | some cid =>
    cases hm : dictGet s.MISSIONS cid with
    | none =>
      refine ⟨m, ?_, le_refl _, fun _ => rfl⟩
      simp only [_register_image_for_current_mission, hcur, hm]
      exact h
    | some mc =>
      by_cases hc : cid = mid
      · subst hc
        rw [h] at hm
        injection hm with hv
        subst hv
        by_cases hp : m.status = "pending"
        · refine ⟨{ m with images_count := m.images_count + 1, status := "running" },
            ?_, Nat.le_succ _, fun hnp => absurd hp hnp⟩
          simp only [_register_image_for_current_mission, hcur, h, hp, ite_true,
            dictGet_dictSet_self]
        · refine ⟨{ m with images_count := m.images_count + 1 },
            ?_, Nat.le_succ _, fun _ => rfl⟩
          simp only [_register_image_for_current_mission, hcur, h, hp, ite_false,
            dictGet_dictSet_self]
      · refine ⟨m, ?_, le_refl _, fun _ => rfl⟩
        simp only [_register_image_for_current_mission, hcur, hm]
        rw [dictGet_dictSet_ne _ _ _ _ (fun hh => hc hh.symm)]
        exact h

lemma status_update_missions_aux (now nid : String) (raw : Option Payload)
    (s : ServerState) (mid : String) (m : Mission)
    (h : dictGet s.MISSIONS mid = some m) (hfresh : nid ≠ mid) :
    ∃ m', dictGet (((status_update now nid raw s).1).MISSIONS) mid = some m'
      ∧ m'.images_count = m.images_count
      ∧ (¬ transitioningStatus (effStatus raw) → m'.status = m.status) := by
  simp only [status_update]
  split
  · rename_i s3 e heq
    have hsv : dictGet
        ((if (raw.getD { status := some "bad_status_payload" }).status.getD "" = "mission_idle"
            then { s with MISSION_STATE := "idle" } else s).MISSIONS) mid = some m := by
      split <;> exact h
    obtain ⟨m', h1, h2, h3⟩ :=
      update_mission_missions now nid _ _ _ _ mid m heq hsv hfresh
    exact ⟨m', h1, h2, fun htr => h3 htr⟩
  · rename_i s3 heq
    have hsv : dictGet
        ((if (raw.getD { status := some "bad_status_payload" }).status.getD "" = "mission_idle"
            then { s with MISSION_STATE := "idle" } else s).MISSIONS) mid = some m := by
      split <;> exact h
    obtain ⟨m', h1, h2, h3⟩ :=
      update_mission_missions now nid _ _ _ _ mid m heq hsv hfresh
    exact ⟨m', h1, h2, fun htr => h3 htr⟩

lemma step_mission_aux (op : Op) (s : ServerState) (mid : String) (m : Mission)
    (h : dictGet s.MISSIONS mid = some m) (hfresh : opNewId op ≠ some mid) :
    ∃ m', dictGet ((step op s).MISSIONS) mid = some m'
      ∧ m.images_count ≤ m'.images_count
      ∧ (m.status ≠ "pending" →
          (∀ now nid raw, op = .statusUpdate now nid raw →
            ¬ transitioningStatus (effStatus raw)) →
          m'.status = m.status) := by
  cases op with
  | startMission nid now =>
    have hne : nid ≠ mid := by simpa [opNewId] using hfresh
    have h1 : dictGet (dictSet s.MISSIONS nid
        { id := nid, started_at := now, ended_at := none, status := "pending",
          waypoints_reached := [], waypoints_unreachable := [],
          images_count := 0, last_status := none }) mid = some m := by
      rw [dictGet_dictSet_ne _ _ _ _ (fun hh => hne hh.symm)]
      exact h
    obtain ⟨m', hg, hi, hs⟩ := dictGet_writeThrough _ _ _ _ _ h1
    refine ⟨m', ?_, le_of_eq hi.symm, fun _ _ => hs⟩
    simpa [step, start_mission, _start_new_mission] using hg
  | missionState =>
    refine ⟨m, ?_, le_refl _, fun _ _ => rfl⟩
    simp only [step, mission_state]
    split <;> exact h
  | abortMission => exact ⟨m, h, le_refl _, fun _ _ => rfl⟩
  | returnHome => exact ⟨m, h, le_refl _, fun _ _ => rfl⟩
  | controlState => exact ⟨m, h, le_refl _, fun _ _ => rfl⟩
  | missionsQ => exact ⟨m, h, le_refl _, fun _ _ => rfl⟩
  | lastStatus =>
    cases hls : s.LAST_STATUS with
    | none =>
      refine ⟨m, ?_, le_refl _, fun _ _ => rfl⟩
      simp only [step, last_status, hls]
      exact h
    | some p =>
      obtain ⟨m', hg, hi, hs⟩ := dictGet_writeThrough s.MISSIONS
        s.LAST_STATUS_MISSION _ mid m h
      refine ⟨m', ?_, le_of_eq hi.symm, fun _ _ => hs⟩
      simpa [step, last_status, hls] using hg
  | statusUpdate now nid raw =>
    have hne : nid ≠ mid := by simpa [opNewId] using hfresh
    obtain ⟨m', h1, h2, h3⟩ := status_update_missions_aux now nid raw s mid m h hne
    exact ⟨m', h1, le_of_eq h2.symm, fun _ htr => h3 (htr now nid raw rfl)⟩
  | registerImage nid now =>
    have hne : nid ≠ mid := by simpa [opNewId] using hfresh
    obtain ⟨m', h1, h2, h3⟩ := register_image_mission nid now s mid m h hne
    exact ⟨m', h1, h2, fun hp _ => h3 hp⟩

lemma pollsC_all_none (k : Nat) (s : ServerState)
    (h : s.CONTROL_COMMAND = "none") :
    pollsC k s = List.replicate k "none" := by
  induction k generalizing s with
  | zero => rfl
  | succ k ih =>
    have h2 : ((control_state s).1).CONTROL_COMMAND = "none" := rfl
    simp [pollsC, List.replicate_succ, ih _ h2]
    simpa [control_state] using h

lemma pollsM_all_idle (k : Nat) (s : ServerState)
    (h : s.MISSION_STATE = "idle") :
    pollsM k s = List.replicate k "idle" := by
  induction k generalizing s with
  | zero => rfl
  | succ k ih =>
    have hne : s.MISSION_STATE ≠ "start" := by
      rw [h]
      decide
    have h2 : ((mission_state s).1) = s := by
      simp [mission_state, hne]
    simp [pollsM, List.replicate_succ, h2, ih s h]
    simpa [mission_state] using h

lemma mem_insertByStartedAt (x z : MissionSummary) (l : List MissionSummary)
    (h : z ∈ insertByStartedAt x l) : z = x ∨ z ∈ l := by
  induction l with
  | nil =>
    simp [insertByStartedAt] at h
    exact Or.inl h
  | cons y ys ih =>
    rw [insertByStartedAt] at h
    by_cases hc : y.started_at ≤ x.started_at
    · rw [if_pos hc] at h
      exact List.mem_cons.mp h
    · rw [if_neg hc] at h
      rcases List.mem_cons.mp h with h | h
      · exact Or.inr (List.mem_cons.mpr (Or.inl h))
      · rcases ih h with h' | h'
        · exact Or.inl h'
        · exact Or.inr (List.mem_cons.mpr (Or.inr h'))

lemma pairwise_insertByStartedAt (x : MissionSummary) (l : List MissionSummary)
    (h : l.Pairwise (fun a b => b.started_at ≤ a.started_at)) :
    (insertByStartedAt x l).Pairwise (fun a b => b.started_at ≤ a.started_at) := by
  induction l with
  | nil => simp [insertByStartedAt]
  | cons y ys ih =>
    rcases List.pairwise_cons.mp h with ⟨hy, hys⟩
    by_cases hc : y.started_at ≤ x.started_at
    · rw [insertByStartedAt, if_pos hc]
      refine List.pairwise_cons.mpr ⟨?_, h⟩
      intro z hz
      rcases List.mem_cons.mp hz with hz | hz
      · rw [hz]
        exact hc
      · exact le_trans (hy z hz) hc
    · rw [insertByStartedAt, if_neg hc]
      refine List.pairwise_cons.mpr ⟨?_, ih hys⟩
      intro z hz
      rcases mem_insertByStartedAt x z ys hz with hz | hz
      · rw [hz]
        exact le_of_not_le hc
      · exact hy z hz

lemma pairwise_sortByStartedAtDesc (l : List MissionSummary) :
    (sortByStartedAtDesc l).Pairwise (fun a b => b.started_at ≤ a.started_at) := by
  induction l with
  | nil => simp [sortByStartedAtDesc]
  | cons x xs ih =>
    simp only [sortByStartedAtDesc, List.foldr_cons] at *
    exact pairwise_insertByStartedAt x _ ih

lemma filter_insertByStartedAt (x : MissionSummary) (l : List MissionSummary)
    (k : String) :
    (insertByStartedAt x l).filter (fun y => y.started_at == k)
      = if x.started_at == k
          then x :: l.filter (fun y => y.started_at == k)
          else l.filter (fun y => y.started_at == k) := by
  induction l with
  | nil =>
    by_cases hx : x.started_at = k
    · have hb : (x.started_at == k) = true := beq_iff_eq.mpr hx
      simp [insertByStartedAt, List.filter, hb, hx]
    · have hb : (x.started_at == k) = false := beq_eq_false_iff_ne.mpr hx
      simp [insertByStartedAt, List.filter, hb, hx]
  | cons y ys ih =>
    by_cases hc : y.started_at ≤ x.started_at
    · rw [insertByStartedAt, if_pos hc]
      by_cases hx : x.started_at = k <;> simp [List.filter_cons, hx]
    · rw [insertByStartedAt, if_neg hc]
      by_cases hx : x.started_at = k
      · have hyk : y.started_at ≠ k := by
          intro hyk
          rw [← hx] at hyk
          exact hc (le_of_eq hyk)
        simp [List.filter_cons, hx, hyk, ih]
      · simp [List.filter_cons, hx, ih]

lemma filter_sortByStartedAtDesc (l : List MissionSummary) (k : String) :
    (sortByStartedAtDesc l).filter (fun y => y.started_at == k)
      = l.filter (fun y => y.started_at == k) := by
  induction l with
  | nil => rfl
  | cons x xs ih =>
    simp only [sortByStartedAtDesc, List.foldr_cons] at *
    rw [filter_insertByStartedAt]
    by_cases hx : x.started_at = k
    · simp [List.filter_cons, hx, ih]
    · simp [List.filter_cons, hx, ih]

/-! ## Claim theorems -/

/-- C1: one-shot mailbox consume-and-reset, sequentially.  After a single
setControlCommand(abort) (route /abort_mission), a sequence of k+1
pollControlCommand() calls (route /control_state) returns abort exactly on
the first poll and none on every later poll; after a single
triggerMissionStart (route /start_mission), k+1 pollMissionStart() calls
(route /mission_state) return start exactly on the first poll and idle on
every later poll, in particular on an immediate re-poll. -/
theorem C1_one_shot_mailbox (s : ServerState) (k : Nat) (newId now : String) :
    pollsC (k + 1) ((abort_mission s).1) = "abort" :: List.replicate k "none"
    ∧ pollsM (k + 1) ((start_mission newId now s).1)
        = "start" :: List.replicate k "idle" := by
  constructor
  · exact congrArg₂ List.cons rfl (pollsC_all_none k _ rfl)
  · exact congrArg₂ List.cons rfl (pollsM_all_idle k _ rfl)

/-- State after ingesting a mission_started report into the fresh server,
giving a current running mission m1 (used for the C2 failing input). -/
def c2RunState : ServerState :=
  (status_update "t1" "m1" (some { status := some "mission_started" }) initState).1

/-- C2: the code evaluated at the failing inputs.  The /return_home handler
raises NameError for every state because it calls the undefined name
jupytext (line 496) after setting the command slot, and a parseable
waypoint_reached report whose index is not convertible to an integer makes
/status_update raise ValueError from int(idx) (line 102) instead of
returning ok. -/
theorem C2_code_throws :
    (∀ s : ServerState,
      (return_home s).2 = Except.error (PyErr.nameError "jupytext"))
    ∧ (status_update "t2" "n2"
        (some { status := some "waypoint_reached", index := some (PyVal.str "abc") })
        c2RunState).2 = Except.error (PyErr.valueError "abc") := by
  exact ⟨fun _ => rfl, rfl⟩

/-- Terminal state used for the C3 counterexample: reached from the fresh
server by ingesting mission_started and then mission_complete, so mission
m1 is terminal (complete) and still current. -/
def c3TermState : ServerState :=
  (status_update "t5" "n5" (some { status := some "mission_complete" })
    ((status_update "t1" "m1" (some { status := some "mission_started" })
      initState).1)).1

/-- C3 counterexample: a later mission_started report while the terminal
mission is still current sets its status back to running, so a terminal
status is not final as claimed. -/
theorem C3_counterexample_terminal_revived :
    (dictGet c3TermState.MISSIONS "m1").map Mission.status = some "complete"
    ∧ (dictGet (step (Op.statusUpdate "t6" "n6"
        (some { status := some "mission_started" })) c3TermState).MISSIONS "m1").map
          Mission.status = some "running"
    ∧ ("running" : String) ≠ "complete" := by
  exact ⟨rfl, rfl, by decide⟩

/-- C3 amended: once a mission in the registry is terminal its status is
preserved by every operation that uses a fresh mission id, except an ingest
whose status fires a status-setting rule of _update_mission_on_status
(mission_started, the two completion statuses, a status starting with
home_unreachable, or mission_aborted_by_operator); such a report can still
rewrite a terminal mission's status while it stays current. -/
theorem C3_amended_terminal_finality (op : Op) (s : ServerState)
    (mid : String) (m : Mission) (h : dictGet s.MISSIONS mid = some m)
    (hterm : isTerminal m.status) (hfresh : opNewId op ≠ some mid)
    (htrans : ∀ now nid raw, op = .statusUpdate now nid raw →
      ¬ transitioningStatus (effStatus raw)) :
    ∃ m', dictGet ((step op s).MISSIONS) mid = some m'
      ∧ m'.status = m.status := by
  have hp : m.status ≠ "pending" := by
    rcases hterm with h' | h' | h' <;> rw [h'] <;> decide
  obtain ⟨m', h1, _, h3⟩ := step_mission_aux op s mid m h hfresh
  exact ⟨m', h1, h3 hp htrans⟩

/-- Handcrafted terminal mission and state for the C3 witness. -/
def c3WitMission : Mission :=
  { id := "m1", started_at := "t1", ended_at := some "t5", status := "aborted",
    waypoints_reached := [], waypoints_unreachable := [], images_count := 2,
    last_status := none }

/-- Registry state holding the terminal witness mission as current. -/
def c3WitState : ServerState :=
  { initState with
    CURRENT_MISSION_ID := some "m1"
    MISSIONS := [("m1", c3WitMission)] }

/-- C3 witness: the amended theorem applied to a concrete terminal mission
and a concrete waypoint_reached ingest. -/
theorem C3_amended_terminal_finality_witness :
    dictGet c3WitState.MISSIONS "m1" = some c3WitMission
    ∧ isTerminal c3WitMission.status
    ∧ opNewId (Op.statusUpdate "t7" "n7"
        (some { status := some "waypoint_reached", index := some (PyVal.int 4) }))
        ≠ some "m1"
    ∧ (∃ m', dictGet ((step (Op.statusUpdate "t7" "n7"
        (some { status := some "waypoint_reached", index := some (PyVal.int 4) }))
          c3WitState).MISSIONS) "m1" = some m'
        ∧ m'.status = c3WitMission.status) := by
  refine ⟨rfl, by decide, by decide,
    C3_amended_terminal_finality _ _ _ _ rfl (by decide) (by decide) ?_⟩
  intro now nid raw hop
  cases hop
  decide

/-- States of the C4 report sequence, ingested one report at a time into
the fresh server (only the first call draws a mission id, m1). -/
def c4s1 : ServerState :=
  (status_update "t1" "m1" (some { status := some "mission_started" }) initState).1

/-- State after the waypoint_reached index 1 report. -/
def c4s2 : ServerState :=
  (status_update "t2" "n2"
    (some { status := some "waypoint_reached", index := some (PyVal.int 1) }) c4s1).1

/-- State after the waypoint_reached index 3 report. -/
def c4s3 : ServerState :=
  (status_update "t3" "n3"
    (some { status := some "waypoint_reached", index := some (PyVal.int 3) }) c4s2).1

/-- State after the waypoint_unreachable index 2 report. -/
def c4s4 : ServerState :=
  (status_update "t4" "n4"
    (some { status := some "waypoint_unreachable", index := some (PyVal.int 2) }) c4s3).1

/-- State after the final mission_complete report. -/
def c4Final : ServerState :=
  (status_update "t5" "n5" (some { status := some "mission_complete" }) c4s4).1

/-- C4: the report sequence mission_started, waypoint_reached 1,
waypoint_reached 3, waypoint_unreachable 2, mission_complete from the fresh
server auto-creates exactly one mission, whose summary has status complete,
waypointsReached [1, 3], waypointsUnreachable [2] and a non-null endedAt,
and the process-wide terminal status is mission_complete. -/
theorem C4_report_sequence_result :
    c4Final.MISSIONS.map Prod.fst = ["m1"]
    ∧ (dictGet c4Final.MISSIONS "m1").map _mission_summary = some
        { id := "m1", started_at := "t1", ended_at := some "t5",
          status := "complete", waypoints_reached := [1, 3],
          waypoints_unreachable := [2], images_count := 0 }
    ∧ c4Final.LAST_TERMINAL_STATUS = some "mission_complete" := by
  exact ⟨rfl, rfl, rfl⟩

/-- Two missions started in the same second: A created first, B created
second, with identical started_at timestamps. -/
def c5TieState : ServerState :=
  (start_mission "B" "2025-01-01T00:00:00"
    ((start_mission "A" "2025-01-01T00:00:00" initState).1)).1

/-- C5 counterexample: with equal started_at values the /missions listing
keeps insertion order (earlier-created mission A first); the claimed
reversed order, later-created mission B first, is false. -/
theorem C5_counterexample_tie_order :
    ((missions c5TieState).2).map MissionSummary.id = ["A", "B"]
    ∧ ((missions c5TieState).2).map MissionSummary.started_at
        = ["2025-01-01T00:00:00", "2025-01-01T00:00:00"]
    ∧ ((missions c5TieState).2).map MissionSummary.id ≠ ["B", "A"] := by
  refine ⟨?_, ?_, ?_⟩
  · simp [missions, c5TieState, start_mission, _start_new_mission, initState,
      dictSet, writeThrough, sortByStartedAtDesc, insertByStartedAt,
      _mission_summary, sortAsc]
  · simp [missions, c5TieState, start_mission, _start_new_mission, initState,
      dictSet, writeThrough, sortByStartedAtDesc, insertByStartedAt,
      _mission_summary, sortAsc]
  · simp [missions, c5TieState, start_mission, _start_new_mission, initState,
      dictSet, writeThrough, sortByStartedAtDesc, insertByStartedAt,
      _mission_summary, sortAsc]

/-- C5 amended: /missions returns the summaries sorted by started_at
descending, and the missions sharing any fixed started_at value appear in
insertion order (earlier-created first), because the sort is stable. -/
theorem C5_amended_listing_order (s : ServerState) :
    ((missions s).2).Pairwise (fun a b => b.started_at ≤ a.started_at)
    ∧ ∀ k : String,
        ((missions s).2).filter (fun m => m.started_at == k)
          = (s.MISSIONS.map (fun kv => _mission_summary kv.2)).filter
              (fun m => m.started_at == k) := by
  exact ⟨pairwise_sortByStartedAtDesc _, fun k => filter_sortByStartedAtDesc _ k⟩

/-- C6: a report whose status is not mission_started, ingested while no
mission is current, changes neither the registry nor the current mission id
nor the terminal status, returns ok, and still overwrites the process-wide
last-status snapshot with the defaulted payload. -/
theorem C6_drop_without_mission (s : ServerState) (now newId : String)
    (p : Payload) (hcur : s.CURRENT_MISSION_ID = none)
    (hst : p.status.getD "" ≠ "mission_started") :
    ((status_update now newId (some p) s).1).MISSIONS = s.MISSIONS
    ∧ ((status_update now newId (some p) s).1).CURRENT_MISSION_ID = none
    ∧ ((status_update now newId (some p) s).1).LAST_TERMINAL_STATUS
        = s.LAST_TERMINAL_STATUS
    ∧ (status_update now newId (some p) s).2 = Except.ok { ok := true }
    ∧ ((status_update now newId (some p) s).1).LAST_STATUS = some
        { p with
          missionState := some (p.missionState.getD
            (if p.status.getD "" = "mission_idle" then "idle" else s.MISSION_STATE))
          missionId := some (p.missionId.getD "—") } := by
  have hps : p.status ≠ some "mission_started" := by
    intro hh
    apply hst
    rw [hh]
    rfl
  by_cases hmi : p.status.getD "" = "mission_idle"
  · refine ⟨?_, ?_, ?_, ?_, ?_⟩ <;>
      simp [status_update, _update_mission_on_status, hcur, hps, hmi]
  · refine ⟨?_, ?_, ?_, ?_, ?_⟩ <;>
      simp [status_update, _update_mission_on_status, hcur, hps, hmi]

/-- C6 witness: the theorem applied to the fresh server and a concrete
robot_moving report. -/
theorem C6_drop_without_mission_witness :
    initState.CURRENT_MISSION_ID = none
    ∧ (({ status := some "robot_moving" } : Payload).status.getD ""
        ≠ "mission_started")
    ∧ ((status_update "t1" "m1"
        (some { status := some "robot_moving" }) initState).1).MISSIONS
          = initState.MISSIONS
    ∧ (status_update "t1" "m1" (some { status := some "robot_moving" })
        initState).2 = Except.ok { ok := true } := by
  have h := C6_drop_without_mission initState "t1" "m1"
    { status := some "robot_moving" } rfl (by decide)
  exact ⟨rfl, by decide, h.1, h.2.2.2.1⟩

/-- State after the first registerImage call on the fresh server. -/
def c7s1 : ServerState := _register_image_for_current_mission "m1" "t1" initState

/-- State after three registerImage calls on the fresh server (the second
and third calls find a current mission and draw no id). -/
def c7s3 : ServerState :=
  _register_image_for_current_mission "m3" "t3"
    (_register_image_for_current_mission "m2" "t2" c7s1)

/-- C7: three registerImage calls with no prior mission create exactly one
mission on the first call, its status is running after the first call, it
ends with imagesCount 3, and imagesCount of a registered mission never
decreases under any operation using a fresh mission id. -/
theorem C7_register_image_counts :
    (c7s1.MISSIONS.map Prod.fst = ["m1"]
      ∧ (dictGet c7s1.MISSIONS "m1").map Mission.status = some "running"
      ∧ c7s3.MISSIONS.map Prod.fst = ["m1"]
      ∧ (dictGet c7s3.MISSIONS "m1").map Mission.images_count = some 3)
    ∧ ∀ (op : Op) (s : ServerState) (mid : String) (m : Mission),
        dictGet s.MISSIONS mid = some m → opNewId op ≠ some mid →
        ∃ m', dictGet ((step op s).MISSIONS) mid = some m'
          ∧ m.images_count ≤ m'.images_count := by
  constructor
  · exact ⟨rfl, rfl, rfl, rfl⟩
  · intro op s mid m h hfresh
    obtain ⟨m', h1, h2, _⟩ := step_mission_aux op s mid m h hfresh
    exact ⟨m', h1, h2⟩

/-- Concrete mission value held by the registry after the three C7 calls. -/
def c7WitMission : Mission :=
  { id := "m1", started_at := "t1", ended_at := none, status := "running",
    waypoints_reached := [], waypoints_unreachable := [], images_count := 3,
    last_status := none }

/-- C7 witness: the monotonicity part applied to a concrete state and a
concrete operation. -/
theorem C7_register_image_counts_witness :
    dictGet c7s3.MISSIONS "m1" = some c7WitMission
    ∧ opNewId Op.controlState ≠ some "m1"
    ∧ (∃ m', dictGet ((step Op.controlState c7s3).MISSIONS) "m1" = some m'
        ∧ c7WitMission.images_count ≤ m'.images_count) := by
  exact ⟨by decide, by decide,
    C7_register_image_counts.2 Op.controlState c7s3 "m1" c7WitMission
      (by decide) (by decide)⟩

/-- State whose last-status snapshot was set by an ingest (and therefore
carries no terminal_status key yet). -/
def c8MutState : ServerState :=
  (status_update "t1" "m1" (some { status := some "robot_moving" }) initState).1

/-- State after ingesting a mission_started report: mission mA is current
and its last_status entry is the very dict bound to LAST_STATUS. -/
def c8IngestState : ServerState :=
  (status_update "tA" "mA" (some { status := some "mission_started" }) initState).1

/-- C8 counterexample: calling the read-only /last_status route changes the
state.  The handler writes the terminal_status key (and missing defaults)
into the snapshot dict in place, and because the registry's mission mA
holds that same dict as its last_status diagnostic (line 92), the write is
visible in the MissionRegistry as well. -/
theorem C8_counterexample_snapshot_mutation :
    (last_status c8MutState).1 ≠ c8MutState
    ∧ dictGet ((last_status c8IngestState).1).MISSIONS "mA"
        ≠ dictGet c8IngestState.MISSIONS "mA" := by
  exact ⟨by decide, by decide⟩

/-- C8 amended: /missions never mutates state; /last_status leaves the
start flag, current mission id, command slot, terminal status, the set of
mission ids and every mission's summary content (and hence the /missions
listing) unchanged, but it mutates the last-status snapshot in place,
inserting defaulted mission_state / mission_id keys and always writing
terminal_status — a write that reaches the registry through the mission
whose last_status diagnostic is that same dict. -/
theorem C8_amended_query_frame (s : ServerState) :
    (missions s).1 = s
    ∧ ((last_status s).1).MISSION_STATE = s.MISSION_STATE
    ∧ ((last_status s).1).CURRENT_MISSION_ID = s.CURRENT_MISSION_ID
    ∧ ((last_status s).1).CONTROL_COMMAND = s.CONTROL_COMMAND
    ∧ ((last_status s).1).LAST_TERMINAL_STATUS = s.LAST_TERMINAL_STATUS
    ∧ ((last_status s).1).MISSIONS.map Prod.fst = s.MISSIONS.map Prod.fst
    ∧ (missions ((last_status s).1)).2 = (missions s).2 := by
  cases hls : s.LAST_STATUS with
  | none => simp [last_status, missions, hls]
  | some p =>
    refine ⟨rfl, ?_, ?_, ?_, ?_, ?_, ?_⟩
    · simp [last_status, hls]
    · simp [last_status, hls]
    · simp [last_status, hls]
    · simp [last_status, hls]
    · simp only [last_status, hls]
      exact writeThrough_map_fst _ _ _
    · simp only [missions, last_status, hls]
      rw [writeThrough_summaries]

/-- C9: the code evaluated on a failing interleaving.  Two /control_state
handlers each run read (line 502) then reset (line 503) without a lock;
under the schedule read0, read1, reset0, reset1 both handlers return abort,
delivering the single command twice, while the fully sequential schedule
read0, reset0, read1, reset1 delivers it exactly once. -/
theorem C9_race_duplicates_command :
    microRun [0, 1, 0, 1] ("abort", [ThreadPC.ready, ThreadPC.ready])
      = ("none", [ThreadPC.finished "abort", ThreadPC.finished "abort"])
    ∧ microRun [0, 0, 1, 1] ("abort", [ThreadPC.ready, ThreadPC.ready])
      = ("none", [ThreadPC.finished "abort", ThreadPC.finished "none"]) := by
  exact ⟨rfl, rfl⟩

/-- C10: /start_mission registers a fresh pending mission, makes it
current, clears the terminal status, and sets the one-shot start flag so
that the immediately following /mission_state poll returns start; it also
records the new mission id in the last-status snapshot, setting the status
key to mission_idle only when it was absent and keeping any present status
value. -/
theorem C10_start_mission_effects (s : ServerState) (newId now : String) :
    (dictGet ((start_mission newId now s).1).MISSIONS newId).map Mission.status
        = some "pending"
    ∧ ((start_mission newId now s).1).CURRENT_MISSION_ID = some newId
    ∧ ((start_mission newId now s).1).LAST_TERMINAL_STATUS = none
    ∧ ((start_mission newId now s).1).MISSION_STATE = "start"
    ∧ (mission_state ((start_mission newId now s).1)).2 = "start"
    ∧ ((start_mission newId now s).1).LAST_STATUS.bind Payload.missionId
        = some newId
    ∧ (∀ p v, s.LAST_STATUS = some p → p.status = some v →
        ((start_mission newId now s).1).LAST_STATUS.bind Payload.status = some v)
    ∧ (s.LAST_STATUS = none →
        ((start_mission newId now s).1).LAST_STATUS.bind Payload.status
          = some "mission_idle") := by
  refine ⟨?_, rfl, rfl, rfl, rfl, ?_, ?_, ?_⟩
  · simp only [start_mission, _start_new_mission]
    rw [dictGet_writeThrough_map_status, dictGet_dictSet_self]
    rfl
  · cases hls : s.LAST_STATUS <;> simp [start_mission, _start_new_mission, hls]
  · intro p v hp hv
    simp [start_mission, _start_new_mission, hp, hv]
  · intro hnone
    simp [start_mission, _start_new_mission, hnone]

/-- State with a present robot_moving status value for the C10 witness. -/
def c10WitState : ServerState :=
  { initState with LAST_STATUS := some { status := some "robot_moving" } }

/-- C10 witness: the theorem applied to a concrete state whose snapshot
already has a status value, which start_mission keeps. -/
theorem C10_start_mission_effects_witness :
    c10WitState.LAST_STATUS = some ({ status := some "robot_moving" } : Payload)
    ∧ ({ status := some "robot_moving" } : Payload).status = some "robot_moving"
    ∧ ((start_mission "mX" "tX" c10WitState).1).LAST_STATUS.bind Payload.status
        = some "robot_moving"
    ∧ (mission_state ((start_mission "mX" "tX" c10WitState).1)).2 = "start" := by
  refine ⟨rfl, rfl, ?_, ?_⟩
  · exact (C10_start_mission_effects c10WitState "mX" "tX").2.2.2.2.2.2.1
      { status := some "robot_moving" } "robot_moving" rfl rfl
  · exact (C10_start_mission_effects c10WitState "mX" "tX").2.2.2.2.1
